import Mathlib

/-
Verification of the GR-assistant pipeline (tools/gr_assistant) against its
specification.  The Python sources are shallowly embedded: pure functions
become Lean functions, the mutable RunDAG becomes explicit state passing,
exceptions become Except/Option values, and the external capabilities
(HTTP tool server, sympy, pint) become explicit oracle parameters.
-/

namespace GRAssist

/-- JSON-like values, the payload/response currency of the orchestrator.
Numbers are modelled as integers (the orchestrator never computes with
them); objects keep their field order as parsed. -/
inductive Json where
  | null : Json
  | bool (b : Bool) : Json
  | num (n : Int) : Json
  | str (s : String) : Json
  | arr (items : List Json) : Json
  | obj (fields : List (String × Json)) : Json
deriving Repr

/-- Python dict membership / lookup on an association list of fields. -/
def dictGet (fields : List (String × Json)) (key : String) : Option Json :=
  (fields.find? (fun p => p.1 = key)).map (fun p => p.2)

/-- Python truthiness of a JSON value, as used by statements of the form
if node.checks: in the source. -/
def jsonTruthy : Json → Bool
  | Json.null => false
  | Json.bool b => b
  | Json.num n => n != 0
  | Json.str s => s ≠ ""
  | Json.arr items => !items.isEmpty
  | Json.obj fields => !fields.isEmpty

/-- Python iteration over a value, as performed by list.extend.  Lists yield
their elements, dicts their keys, strings their characters; other values
raise TypeError. -/
def pyIter : Json → Except String (List Json)
  | Json.arr items => Except.ok items
  | Json.obj fields => Except.ok (fields.map (fun p => Json.str p.1))
  | Json.str s => Except.ok (s.toList.map (fun c => Json.str (String.mk [c])))
  | _ => Except.error "TypeError: object is not iterable"

/-- Python slice l[i:] for an arbitrary integer index: non-negative indices
drop a prefix, negative indices count from the end, clamped at 0. -/
def pySliceFrom (i : Int) (l : List α) : List α :=
  if 0 ≤ i then l.drop i.toNat
  else l.drop ((l.length + i : Int)).toNat

/-- orchestrator.PlanStep. -/
structure PlanStep where
  name : String
  endpoint : String
  payload : List (String × Json)
  kind : String
  output_key : Option String := none
deriving Repr

/-- orchestrator.RunNode.  The checks field is kept as a raw JSON value
because the source assigns response.get("checks", []) to it unchecked. -/
structure RunNode where
  name : String
  endpoint : String
  payload : List (String × Json)
  output_key : Option String
  kind : String
  status : String
  outputs : List (String × Json) := []
  checks : Json := Json.arr []
deriving Repr

/-- orchestrator.RunDAG: node list, artifacts keyed by output_key (a Python
dict, modelled as its lookup function), and the flattened checks list. -/
structure RunDAG where
  nodes : List RunNode
  artifacts : String → Option (List (String × Json))
  checks : List Json

/-- RunDAG() constructor: empty nodes, artifacts and checks. -/
def emptyRunDAG : RunDAG :=
  { nodes := [], artifacts := fun _ => none, checks := [] }

/-- The artifacts update of RunDAG.add_node: when node.output_key and
node.outputs are both truthy, store the outputs under the key. -/
def addArtifacts (artifacts : String → Option (List (String × Json)))
    (node : RunNode) : String → Option (List (String × Json)) :=
  match node.output_key with
  | some key =>
      if key ≠ "" ∧ !node.outputs.isEmpty then
        fun k => if k = key then some node.outputs else artifacts k
      else artifacts
  | none => artifacts

/-- The checks update of RunDAG.add_node: when node.checks is truthy, the
checks list is extended with it, which raises when it is not iterable. -/
def addChecks (checks : List Json) (node : RunNode) : Except String (List Json) :=
  if jsonTruthy node.checks then
    match pyIter node.checks with
    | Except.error e => Except.error e
    | Except.ok items => Except.ok (checks ++ items)
  else Except.ok checks

/-- RunDAG.add_node: append the node, update artifacts and checks.  When the
checks extension raises, the exception escapes the whole run (the source
never catches it), so the partially updated DAG is discarded here. -/
def RunDAG.add_node (dag : RunDAG) (node : RunNode) : Except String RunDAG :=
  match addChecks dag.checks node with
  | Except.error e => Except.error e
  | Except.ok cs =>
      Except.ok { nodes := dag.nodes ++ [node],
                  artifacts := addArtifacts dag.artifacts node,
                  checks := cs }

/-- RunDAG.rerun_from: out-of-range indices are a no-op; otherwise truncate
the node list to the prefix before the index and clear artifacts and checks. -/
def RunDAG.rerun_from (dag : RunDAG) (index : Int) : RunDAG :=
  if index < 0 ∨ (dag.nodes.length : Int) ≤ index then dag
  else { nodes := dag.nodes.take index.toNat, artifacts := fun _ => none, checks := [] }

/-- The capability boundary: ToolClient.post either returns a JSON object
(its field list) or raises, caught in _execute_steps as the failure case. -/
def Invoke : Type := String → List (String × Json) → Except String (List (String × Json))

/-- The body of the per-step loop of Orchestrator._execute_steps: invoke the
capability, classify the response by step kind, and build the RunNode. -/
def execStep (post : Invoke) (step : PlanStep) : RunNode :=
  let invoked := post step.endpoint step.payload
  let response : List (String × Json) :=
    match invoked with
    | Except.ok r => r
    | Except.error msg => [("error", Json.str msg)]
  let status : String :=
    match invoked with
    | Except.ok _ => "ok"
    | Except.error _ => "fail"
  let outputs : List (String × Json) :=
    if step.kind = "artifact" ∨ step.kind = "scalar" ∨ step.kind = "invariants" then response
    else []
  let checks : Json :=
    if step.kind = "checks" then
      match dictGet response "checks" with
      | some v => v
      | none => Json.arr [Json.obj response]
    else Json.arr []
  { name := step.name, endpoint := step.endpoint, payload := step.payload,
    output_key := step.output_key, kind := step.kind, status := status,
    outputs := outputs, checks := checks }

/-- The loop of Orchestrator._execute_steps over an explicit step list:
each step is executed and recorded via add_node; an exception escaping
add_node aborts the run (it is not caught in the source). -/
def execList (post : Invoke) (dag : RunDAG) : List PlanStep → Except String RunDAG
  | [] => Except.ok dag
  | step :: rest =>
      match dag.add_node (execStep post step) with
      | Except.error e => Except.error e
      | Except.ok dag1 => execList post dag1 rest

namespace Orchestrator

/-- Orchestrator._execute_steps(dag, steps, start_index): iterate over the
Python slice steps[start_index:]. -/
def execute_steps (post : Invoke) (dag : RunDAG) (steps : List PlanStep)
    (start_index : Int) : Except String RunDAG :=
  execList post dag (pySliceFrom start_index steps)

/-- Orchestrator.run_plan: fresh DAG, execute all steps from index 0. -/
def run_plan (post : Invoke) (steps : List PlanStep) : Except String RunDAG :=
  execute_steps post emptyRunDAG steps 0

/-- Orchestrator.rerun_from: truncate-and-clear the DAG, then execute the
step suffix. -/
def rerun_from (post : Invoke) (dag : RunDAG) (steps : List PlanStep)
    (start_index : Int) : Except String RunDAG :=
  execute_steps post (dag.rerun_from start_index) steps start_index

end Orchestrator

/-- Layering of artifact maps: a lookup that falls back to an older layer. -/
def combineArt (older newer : String → Option (List (String × Json))) :
    String → Option (List (String × Json)) :=
  fun k =>
    match newer k with
    | some v => some v
    | none => older k

/-- Prepending a fixed context (earlier nodes, an artifacts layer, earlier
checks) to a DAG; used to relate executions started in different states. -/
def shiftDAG (s d : RunDAG) : RunDAG :=
  { nodes := s.nodes ++ d.nodes,
    artifacts := combineArt s.artifacts d.artifacts,
    checks := s.checks ++ d.checks }

/-- Well-shapedness of a capability response for a checks-kind step: when a
successful response carries a checks field, that field is a JSON array.
This is the response contract of the capability boundary; a violation would
make the checks extension in add_node misbehave. -/
def checksFieldOk (post : Invoke) (step : PlanStep) : Prop :=
  step.kind = "checks" →
    ∀ r, post step.endpoint step.payload = Except.ok r →
      ∀ v, dictGet r "checks" = some v → ∃ items, v = Json.arr items

/-- Extract the DAG of a successful run (total helper for closed statements). -/
def getOrEmpty : Except String RunDAG → RunDAG
  | Except.ok d => d
  | Except.error _ => emptyRunDAG

/-- A concrete recorded node, used in closed instantiations. -/
def witNode : RunNode :=
  { name := "n0", endpoint := "/e0", payload := [], output_key := none,
    kind := "checks", status := "ok", outputs := [], checks := Json.arr [] }

/-- A concrete one-node DAG, used in closed instantiations. -/
def witDAG : RunDAG :=
  { nodes := [witNode], artifacts := fun _ => none, checks := [] }

/-- A capability oracle that always succeeds with an empty object. -/
def postEmpty : Invoke := fun _ _ => Except.ok []

/-- A capability oracle that always raises. -/
def postBoom : Invoke := fun _ _ => Except.error "boom"

/-- A capability oracle returning one passing check tagged by endpoint. -/
def postChecks : Invoke := fun e _ =>
  Except.ok [("checks", Json.arr [Json.obj [("passed", Json.bool true), ("endpoint", Json.str e)]])]

/-- A checks-kind plan step hitting endpoint /a. -/
def stepA : PlanStep :=
  { name := "a", endpoint := "/a", payload := [], kind := "checks", output_key := none }

/-- A checks-kind plan step hitting endpoint /b. -/
def stepB : PlanStep :=
  { name := "b", endpoint := "/b", payload := [], kind := "checks", output_key := none }

/-- An artifact step declaring the empty string as its output key. -/
def emptyKeyStep : PlanStep :=
  { name := "s", endpoint := "/x", payload := [], kind := "artifact", output_key := some "" }

/-- A scalar step declaring the non-empty output key val. -/
def witKeyStep : PlanStep :=
  { name := "w", endpoint := "/s", payload := [], kind := "scalar", output_key := some "val" }

/-- cas.simplify_expr.  The external engine operations sp.simplify,
sp.together and sp.factor are oracle parameters returning none when they
raise; the tiered policy with its early returns is translated directly. -/
def simplify_expr {Expr : Type} (S T F : Expr → Option Expr)
    (expr : Expr) (level : Int) : Expr :=
  if level ≤ 0 then expr
  else
    let simplified := match S expr with | some s => s | none => expr
    if level ≤ 1 then simplified
    else
      match T simplified with
      | none => simplified
      | some t =>
          if level ≤ 2 then t
          else match F t with | some f => f | none => t

/-- cas.simplify_tensor: componentwise simplification of a tensor, whose
components are modelled as a flat list (index order does not matter to
the componentwise map). -/
def simplify_tensor {Expr : Type} (S T F : Expr → Option Expr)
    (tensor : List Expr) (level : Int) : List Expr :=
  tensor.map (fun e => simplify_expr S T F e level)

/-- Tier 1 of the spec policy: generic simplification attempted on the
tier-0 result (the expression itself), falling back to it on failure. -/
def tier1 {Expr : Type} (S : Expr → Option Expr) (e : Expr) : Expr :=
  (S e).getD e

/-- Tier 2 of the spec policy: common-denominator combination attempted on
the tier-1 result, falling back to it on failure. -/
def tier2 {Expr : Type} (S T : Expr → Option Expr) (e : Expr) : Expr :=
  (T (tier1 S e)).getD (tier1 S e)

/-- Tier 3 of the spec policy: factorization attempted on the tier-2
result, falling back to it on failure. -/
def tier3 {Expr : Type} (S T F : Expr → Option Expr) (e : Expr) : Expr :=
  (F (tier2 S T e)).getD (tier2 S T e)

/-- Modelled from the spec wording of section 4.3: the result of tier n for
a component, where each tier is attempted on the previous tier result and
falls back to it on internal failure (tier 1 generic simplification, tier 2
common-denominator combination, tier 3 factorization). -/
def specTierResult {Expr : Type} (S T F : Expr → Option Expr) (e : Expr) : Nat → Expr
  | 0 => e
  | 1 => tier1 S e
  | 2 => tier2 S T e
  | _ + 3 => tier3 S T F e

/-- The tier selected by an integer simplification level: levels at most 0
are tier 0, levels above 3 behave as tier 3. -/
def levelTier (level : Int) : Nat :=
  if level ≤ 0 then 0 else if level ≤ 1 then 1 else if level ≤ 2 then 2 else 3

/-- The code path of simplify_expr as a tier cascade: identical to
specTierResult except that at tier 3 a failure of the tier-2 combination
returns the tier-1 result immediately, without attempting factorization. -/
def codeTierResult {Expr : Type} (S T F : Expr → Option Expr) (e : Expr) : Nat → Expr
  | 0 => e
  | 1 => (S e).getD e
  | 2 => (T ((S e).getD e)).getD ((S e).getD e)
  | _ + 3 =>
      match T ((S e).getD e) with
      | none => (S e).getD e
      | some t => (F t).getD t

/-- An always-succeeding identity simplifier (oracle for closed instances). -/
def oracleId : Nat → Option Nat := fun n => some n

/-- An always-failing engine operation (oracle for closed instances). -/
def oracleFail : Nat → Option Nat := fun _ => none

/-- An always-succeeding engine operation that changes its argument. -/
def oracleSucc : Nat → Option Nat := fun n => some (n + 1)

/-- schemas.CheckResult. -/
structure CheckResult where
  check_name : String
  passed : Bool
  residual : Option String := none
  notes : Option String := none
deriving Repr, DecidableEq

/-- schemas.MetricSpec.validate_shape, the model_validator body: empty
coordinate lists, length mismatches and ragged rows are rejected with the
source error messages; matrix cells are opaque. -/
def validate_shape {α : Type} (coords : List String) (g_dd : List (List α)) :
    Except String Unit :=
  if coords.length = 0 then Except.error "coords must be non-empty"
  else if g_dd.length ≠ coords.length then Except.error "g_dd must match coords length"
  else if g_dd.all (fun row => row.length = coords.length) then Except.ok ()
  else Except.error "g_dd must be a square matrix"

/-- checks._evaluate_tensor_max: running maximum of the absolute values of
the numerically evaluated components, skipping components whose evaluation
fails (the substitution/float coercion is the oracle evalN). -/
def evaluate_tensor_max {Expr Sample : Type} (evalN : Expr → Sample → Option ℚ)
    (tensor : List Expr) (sample : Sample) : ℚ :=
  tensor.foldl
    (fun max_abs e =>
      match evalN e sample with
      | none => max_abs
      | some q => max max_abs |q|)
    0

/-- The default vacuum-check epsilon, 1e-8, given in normal form so that
concrete instances evaluate by reduction. -/
def eps0 : ℚ :=
  { num := 1, den := 100000000, den_nz := by decide, reduced := Nat.coprime_one_left _ }

/-- checks.check_vacuum.  The Einstein tensor computation, the numeric
evaluation of a component at a sample, and the symbolic zero test are
oracle parameters; numbers are exact rationals standing for the floats. -/
def check_vacuum {Expr Sample Metric : Type}
    (einsteinOf : Metric → List Expr)
    (evalNum : Metric → Expr → Sample → Option ℚ)
    (isZero : Expr → Bool)
    (metric : Metric)
    (sample_points : Option (List Sample))
    (epsilon : Option ℚ) : CheckResult :=
  let einstein := einsteinOf metric
  match sample_points with
  | some (s0 :: rest) =>
      let pts := s0 :: rest
      let max_abs := pts.foldl
        (fun acc s => max acc (evaluate_tensor_max (evalNum metric) einstein s)) 0
      let threshold := epsilon.getD eps0
      { check_name := "vacuum",
        passed := decide (max_abs ≤ threshold),
        residual := some (toString max_abs),
        notes := some ("max_abs=" ++ toString max_abs ++ " threshold=" ++ toString threshold) }
  | _ =>
      let passed := einstein.all isZero
      { check_name := "vacuum", passed := passed,
        residual := if passed then none else some "G_ab != 0" }

/-- Modelled from the spec wording of section 4.4 (vacuum, numeric mode):
the maximum absolute value over all components across all samples, with
non-evaluable components skipped and an empty maximum of 0. -/
def specVacuumMax {Expr Sample : Type} (evalN : Expr → Sample → Option ℚ)
    (tensor : List Expr) (pts : List Sample) : ℚ :=
  ((pts.map (fun s => tensor.filterMap (fun e => (evalN e s).map (fun q => |q|)))).flatten).foldl max 0

/-- Expression grammar dispatched on by units._unit_of_expr: sympy number
leaves, symbols, n-ary sums and products, powers, function applications,
and a catch-all for every other sympy node kind (the unsupported branch). -/
inductive UExpr where
  | num (value : ℚ) : UExpr
  | sym (name : String) : UExpr
  | add (args : List UExpr) : UExpr
  | mul (args : List UExpr) : UExpr
  | pow (base exponent : UExpr) : UExpr
  | func (fname : String) (args : List UExpr) : UExpr
  | other (descr : String) : UExpr
deriving Repr

/-- Exceptions escaping units._unit_of_expr: the KeyError raised for an
undeclared symbol, and every other exception (ValueError, pint errors)
carrying its message. -/
inductive UnitErr where
  | key (name : String) : UnitErr
  | exc (msg : String) : UnitErr
deriving Repr, DecidableEq

/-- The pint operations used by the unit checker, as an oracle bundle: the
dimensionless unit, unit product, unit power, and equality of
dimensionalities. -/
structure UnitSystem (Unit : Type) where
  dimensionless : Unit
  mul : Unit → Unit → Unit
  upow : Unit → ℚ → Unit
  dimEq : Unit → Unit → Bool

/-- units._unit_for_symbol: KeyError when the symbol has no declared unit,
otherwise the parsed unit (parse failures carry the pint message). -/
def unit_for_symbol {Unit : Type} (parseU : String → Except String Unit)
    (symbol_units : List (String × String)) (name : String) : Except UnitErr Unit :=
  match (symbol_units.find? (fun p => p.1 = name)).map (fun p => p.2) with
  | none => Except.error (UnitErr.key name)
  | some ustr =>
      match parseU ustr with
      | Except.ok u => Except.ok u
      | Except.error msg => Except.error (UnitErr.exc msg)

mutual

/-- sympy is_number on the embedded grammar: a constant expression, with
no symbols and no unsupported nodes anywhere (function applications stand
for sympy defined functions, which are numbers when their arguments are). -/
def UExpr.is_number : UExpr → Bool
  | UExpr.num _ => true
  | UExpr.sym _ => false
  | UExpr.add args => allNumber args
  | UExpr.mul args => allNumber args
  | UExpr.pow base exponent => base.is_number && exponent.is_number
  | UExpr.func _ args => allNumber args
  | UExpr.other _ => false

/-- Conjunction of is_number over an argument list. -/
def allNumber : List UExpr → Bool
  | [] => true
  | e :: rest => e.is_number && allNumber rest

end

mutual

/-- units._unit_of_expr: recursive unit assignment over the expression
structure, raising on additive dimensionality mismatch, non-numeric
exponents, dimensionful function arguments and unsupported nodes.  The
oracle evalC models float() on a constant expression (it may raise, for
instance on complex constants); of a function application only the first
argument is inspected, exactly as in the source. -/
def unit_of_expr {Unit : Type} (us : UnitSystem Unit)
    (evalC : UExpr → Except String ℚ)
    (parseU : String → Except String Unit)
    (symbol_units : List (String × String)) : UExpr → Except UnitErr Unit
  | UExpr.num _ => Except.ok us.dimensionless
  | UExpr.sym name => unit_for_symbol parseU symbol_units name
  | UExpr.add args =>
      match unit_of_list us evalC parseU symbol_units args with
      | Except.error e => Except.error e
      | Except.ok [] => Except.error (UnitErr.exc "IndexError: list index out of range")
      | Except.ok (base :: rest) =>
          if rest.all (us.dimEq base) then Except.ok base
          else Except.error (UnitErr.exc "unit mismatch in sum")
  | UExpr.mul args =>
      match unit_of_list us evalC parseU symbol_units args with
      | Except.error e => Except.error e
      | Except.ok units => Except.ok (units.foldl us.mul us.dimensionless)
  | UExpr.pow base exponent =>
      if exponent.is_number then
        match unit_of_expr us evalC parseU symbol_units base with
        | Except.error e => Except.error e
        | Except.ok u =>
            match evalC exponent with
            | Except.ok q => Except.ok (us.upow u q)
            | Except.error msg => Except.error (UnitErr.exc msg)
      else Except.error (UnitErr.exc "non-numeric exponent in unit expression")
  | UExpr.func _ args =>
      match args with
      | [] => Except.ok us.dimensionless
      | arg :: _ =>
          match unit_of_expr us evalC parseU symbol_units arg with
          | Except.error e => Except.error e
          | Except.ok au =>
              if us.dimEq au us.dimensionless then Except.ok us.dimensionless
              else Except.error (UnitErr.exc "function expects dimensionless argument")
  | UExpr.other _ => Except.error (UnitErr.exc "unsupported expression for unit check")

/-- Unit assignment of an argument list in order, propagating the first
exception, as the argument loops of _unit_of_expr do. -/
def unit_of_list {Unit : Type} (us : UnitSystem Unit)
    (evalC : UExpr → Except String ℚ)
    (parseU : String → Except String Unit)
    (symbol_units : List (String × String)) : List UExpr → Except UnitErr (List Unit)
  | [] => Except.ok []
  | e :: rest =>
      match unit_of_expr us evalC parseU symbol_units e with
      | Except.error err => Except.error err
      | Except.ok u =>
          match unit_of_list us evalC parseU symbol_units rest with
          | Except.error err => Except.error err
          | Except.ok units => Except.ok (u :: units)

end

/-- ASCII lowercasing of a character, as Python str.lower acts on the
ASCII system names used here. -/
def lcChar (c : Char) : Char :=
  if 65 ≤ c.toNat ∧ c.toNat ≤ 90 then Char.ofNat (c.toNat + 32) else c

/-- The test unit_system.lower().startswith("geom") of check_units. -/
def startsWithGeomLC (s : String) : Bool :=
  (s.toList.map lcChar).take 4 = ['g', 'e', 'o', 'm']

/-- Python str() of the KeyError raised for an undeclared symbol: the repr
of its message, which is double-quoted because the message itself contains
single quotes. -/
def keyErrorStr (name : String) : String :=
  "\"missing unit for symbol \x27" ++ name ++ "\x27\""

/-- units.check_units: geometrized systems pass trivially; otherwise the
expression is parsed (oracle sympifyO) and units are assigned, with every
exception converted into a failed CheckResult carrying the message. -/
def check_units {Unit : Type} (us : UnitSystem Unit)
    (sympifyO : String → Except String UExpr)
    (evalC : UExpr → Except String ℚ)
    (parseU : String → Except String Unit)
    (expression : String) (symbol_units : List (String × String))
    (unit_system : String) : CheckResult :=
  if startsWithGeomLC unit_system then
    { check_name := "unit_check", passed := true,
      notes := some "geometrized units assumed; no dimension check applied" }
  else
    match sympifyO expression with
    | Except.error msg =>
        { check_name := "unit_check", passed := false, notes := some msg }
    | Except.ok expr =>
        match unit_of_expr us evalC parseU symbol_units expr with
        | Except.ok _ => { check_name := "unit_check", passed := true }
        | Except.error (UnitErr.key name) =>
            { check_name := "unit_check", passed := false, notes := some (keyErrorStr name) }
        | Except.error (UnitErr.exc msg) =>
            { check_name := "unit_check", passed := false, notes := some msg }

/-- A one-dimension unit model: a unit is its dimension exponent. -/
def qUnits : UnitSystem ℚ :=
  { dimensionless := 0, mul := (· + ·), upow := (· * ·), dimEq := fun a b => a = b }

/-- A parser for the unit strings of the closed unit-check instances. -/
def parseQ : String → Except String ℚ := fun s =>
  if s = "meter" then Except.ok 1 else Except.error ("undefined unit " ++ s)

/-- A sympify oracle for the closed unit-check instances: x**y, z and
the two-argument function application f(1, y). -/
def sympifyDemo : String → Except String UExpr := fun s =>
  if s = "x**y" then Except.ok (UExpr.pow (UExpr.sym "x") (UExpr.sym "y"))
  else if s = "z" then Except.ok (UExpr.sym "z")
  else if s = "f(1, y)" then Except.ok (UExpr.func "f" [UExpr.num 1, UExpr.sym "y"])
  else Except.error ("SympifyError: " ++ s)

/-- A float() oracle for the closed unit-check instances: numeric leaves
evaluate to themselves, anything else raises. -/
def evalCDemo : UExpr → Except String ℚ := fun e =>
  match e with
  | UExpr.num q => Except.ok q
  | _ => Except.error "TypeError: float() argument must be a number"

lemma combineArt_none (older : String → Option (List (String × Json))) :
    combineArt older (fun _ => none) = older := by
  funext k
  simp [combineArt]

lemma shiftDAG_empty (s : RunDAG) : shiftDAG s emptyRunDAG = s := by
  simp [shiftDAG, emptyRunDAG, combineArt_none]

lemma addArtifacts_combine (older newer : String → Option (List (String × Json)))
    (node : RunNode) :
    addArtifacts (combineArt older newer) node = combineArt older (addArtifacts newer node) := by
  unfold addArtifacts
  cases node.output_key with
  | none => rfl
  | some key =>
      dsimp only
      by_cases hcond : key ≠ "" ∧ !node.outputs.isEmpty
      · rw [if_pos hcond, if_pos hcond]
        funext k
        by_cases hk : k = key <;> simp [hk, combineArt]
      · rw [if_neg hcond, if_neg hcond]

lemma addChecks_append (s cs : List Json) (node : RunNode) :
    addChecks (s ++ cs) node = (addChecks cs node).map (fun l => s ++ l) := by
  unfold addChecks
  cases hch : jsonTruthy node.checks
  · simp [Except.map]
  · simp only [if_pos]
    cases hit : pyIter node.checks
    · simp [Except.map]
    · simp [Except.map, List.append_assoc]

lemma add_node_shift (s d : RunDAG) (node : RunNode) :
    (shiftDAG s d).add_node node = (d.add_node node).map (shiftDAG s) := by
  unfold RunDAG.add_node
  have hch := addChecks_append s.checks d.checks node
  cases hd : addChecks d.checks node with
  | error e =>
      rw [show (shiftDAG s d).checks = s.checks ++ d.checks from rfl, hch, hd]
      rfl
  | ok cs =>
      rw [show (shiftDAG s d).checks = s.checks ++ d.checks from rfl, hch, hd]
      show Except.ok _ = Except.map _ _
      simp only [Except.map]
      congr 1
      show ({ nodes := (shiftDAG s d).nodes ++ [node],
              artifacts := addArtifacts (shiftDAG s d).artifacts node,
              checks := s.checks ++ cs } : RunDAG) = _
      rw [show (shiftDAG s d).nodes = s.nodes ++ d.nodes from rfl,
          show (shiftDAG s d).artifacts = combineArt s.artifacts d.artifacts from rfl,
          addArtifacts_combine, List.append_assoc]
      rfl

lemma execList_shift (post : Invoke) (l : List PlanStep) :
    ∀ s d : RunDAG, execList post (shiftDAG s d) l = (execList post d l).map (shiftDAG s) := by
  induction l with
  | nil => intro s d; rfl
  | cons step rest ih =>
      intro s d
      simp only [execList]
      rw [add_node_shift]
      cases hd : d.add_node (execStep post step) with
      | error e => rfl
      | ok d1 => exact ih s d1

/-- Executions from an arbitrary starting DAG are the fresh execution with
the starting context layered underneath. -/
lemma execList_from_state (post : Invoke) (l : List PlanStep) (s : RunDAG) :
    execList post s l = (execList post emptyRunDAG l).map (shiftDAG s) := by
  have h := execList_shift post l s emptyRunDAG
  rwa [shiftDAG_empty] at h

lemma execList_append_steps (post : Invoke) (l1 l2 : List PlanStep) :
    ∀ s : RunDAG, execList post s (l1 ++ l2) =
      match execList post s l1 with
      | Except.error e => Except.error e
      | Except.ok d1 => execList post d1 l2 := by
  induction l1 with
  | nil => intro s; rfl
  | cons step rest ih =>
      intro s
      simp only [List.cons_append, execList]
      cases hd : s.add_node (execStep post step) with
      | error e => rfl
      | ok d1 => exact ih d1

lemma add_node_nodes (dag d2 : RunDAG) (node : RunNode)
    (h : dag.add_node node = Except.ok d2) : d2.nodes = dag.nodes ++ [node] := by
  unfold RunDAG.add_node at h
  cases hc : addChecks dag.checks node with
  | error e => rw [hc] at h; exact absurd h (by simp)
  | ok cs =>
      rw [hc] at h
      cases h
      rfl

lemma execList_nodes (post : Invoke) (l : List PlanStep) :
    ∀ s d : RunDAG, execList post s l = Except.ok d →
      d.nodes = s.nodes ++ l.map (execStep post) := by
  induction l with
  | nil =>
      intro s d h
      cases h
      simp
  | cons step rest ih =>
      intro s d h
      unfold execList at h
      cases hd : s.add_node (execStep post step) with
      | error e => rw [hd] at h; exact absurd h (by simp)
      | ok d1 =>
          rw [hd] at h
          have h1 := ih d1 d h
          rw [h1, add_node_nodes s d1 (execStep post step) hd]
          simp

lemma combineArt_bot (newer : String → Option (List (String × Json))) :
    combineArt (fun _ => none) newer = newer := by
  funext k
  unfold combineArt
  cases newer k <;> rfl

lemma pySliceFrom_natCast {α : Type} (k : Nat) (l : List α) :
    pySliceFrom (k : Int) l = l.drop k := by
  simp [pySliceFrom]

lemma pySliceFrom_zero {α : Type} (l : List α) : pySliceFrom 0 l = l := by
  simp [pySliceFrom]

lemma execStep_status (post : Invoke) (step : PlanStep) :
    (execStep post step).status =
      match post step.endpoint step.payload with
      | Except.ok _ => "ok"
      | Except.error _ => "fail" := by
  unfold execStep
  cases post step.endpoint step.payload <;> rfl

lemma execStep_checks_arr (post : Invoke) (step : PlanStep) (h : checksFieldOk post step) :
    ∃ items, (execStep post step).checks = Json.arr items := by
  by_cases hk : step.kind = "checks"
  · cases hp : post step.endpoint step.payload with
    | error msg =>
        refine ⟨[Json.obj [("error", Json.str msg)]], ?_⟩
        simp [execStep, hk, hp, dictGet]
    | ok r =>
        cases hv : dictGet r "checks" with
        | none => exact ⟨[Json.obj r], by simp [execStep, hk, hp, hv]⟩
        | some v =>
            obtain ⟨items, rfl⟩ := h hk r hp v hv
            exact ⟨items, by simp [execStep, hk, hp, hv]⟩
  · exact ⟨[], by simp [execStep, hk]⟩

lemma addChecks_ok_of_arr (cs : List Json) (node : RunNode) (items : List Json)
    (h : node.checks = Json.arr items) :
    addChecks cs node = Except.ok (if items.isEmpty then cs else cs ++ items) := by
  unfold addChecks
  rw [h]
  by_cases hb : items.isEmpty = true
  · simp [jsonTruthy, hb]
  · simp only [Bool.not_eq_true] at hb
    simp [jsonTruthy, hb, pyIter]

lemma add_node_ok_of_arr (dag : RunDAG) (node : RunNode) (items : List Json)
    (h : node.checks = Json.arr items) :
    ∃ d2, dag.add_node node = Except.ok d2 ∧ d2.nodes = dag.nodes ++ [node] := by
  unfold RunDAG.add_node
  rw [addChecks_ok_of_arr dag.checks node items h]
  exact ⟨_, rfl, rfl⟩

lemma execList_ok_of_wf (post : Invoke) :
    ∀ (l : List PlanStep) (s : RunDAG), (∀ step ∈ l, checksFieldOk post step) →
      ∃ d, execList post s l = Except.ok d ∧ d.nodes = s.nodes ++ l.map (execStep post) := by
  intro l
  induction l with
  | nil =>
      intro s _
      exact ⟨s, rfl, by simp⟩
  | cons step rest ih =>
      intro s hwf
      obtain ⟨items, hitems⟩ := execStep_checks_arr post step (hwf step (by simp))
      obtain ⟨d1, hd1, hnodes1⟩ := add_node_ok_of_arr s (execStep post step) items hitems
      obtain ⟨d, hd, hnodes⟩ := ih d1 (fun st hst => hwf st (by simp [hst]))
      refine ⟨d, ?_, ?_⟩
      · unfold execList
        rw [hd1]
        exact hd
      · rw [hnodes, hnodes1]
        simp

/-- C1: for a DAG with a recorded node count n and any index k with
0 <= k < n, Orchestrator.rerun_from truncates the node list to the prefix
before k, resets artifacts to the empty map and checks to the empty list
(dropping entries contributed by the retained prefix), and then executes
steps[k:] exactly as a fresh run of that suffix would, so the final state
is the fresh-run state of the suffix sitting after the retained prefix. -/
theorem rerun_from_truncates_and_replays (post : Invoke) (dag : RunDAG)
    (steps : List PlanStep) (k : Nat) (hk : k < dag.nodes.length) :
    Orchestrator.rerun_from post dag steps (k : Int) =
      (Orchestrator.run_plan post (steps.drop k)).map
        (fun fresh =>
          { nodes := dag.nodes.take k ++ fresh.nodes,
            artifacts := fresh.artifacts,
            checks := fresh.checks }) := by
  have hcond : ¬ (((k : Int)) < 0 ∨ ((dag.nodes.length : Int)) ≤ (k : Int)) := by
    push_neg
    omega
  unfold Orchestrator.rerun_from Orchestrator.run_plan Orchestrator.execute_steps RunDAG.rerun_from
  rw [if_neg hcond, pySliceFrom_natCast, pySliceFrom_zero]
  rw [execList_from_state post (steps.drop k)]
  congr 1
  funext fresh
  show shiftDAG _ fresh = _
  unfold shiftDAG
  rw [combineArt_bot]
  simp

/-- Witness for C1 at a concrete one-node DAG, empty step list and k = 0. -/
theorem rerun_from_truncates_and_replays_witness :
    0 < witDAG.nodes.length ∧
    Orchestrator.rerun_from postEmpty witDAG ([] : List PlanStep) ((0 : Nat) : Int) =
      (Orchestrator.run_plan postEmpty (([] : List PlanStep).drop 0)).map
        (fun fresh =>
          { nodes := witDAG.nodes.take 0 ++ fresh.nodes,
            artifacts := fresh.artifacts,
            checks := fresh.checks }) :=
  ⟨by decide, rerun_from_truncates_and_replays postEmpty witDAG [] 0 (by decide)⟩

/-- C9: for an index k with k < 0 or k at least the number of recorded
nodes, RunDAG.rerun_from leaves the DAG exactly unchanged (no truncation,
no clearing), while Orchestrator.rerun_from still executes the Python
slice steps[k:] against the unmodified DAG. -/
theorem rerun_from_out_of_range (post : Invoke) (dag : RunDAG)
    (steps : List PlanStep) (k : Int)
    (hk : k < 0 ∨ (dag.nodes.length : Int) ≤ k) :
    dag.rerun_from k = dag ∧
      Orchestrator.rerun_from post dag steps k = execList post dag (pySliceFrom k steps) := by
  have h1 : dag.rerun_from k = dag := by
    unfold RunDAG.rerun_from
    rw [if_pos hk]
  refine ⟨h1, ?_⟩
  unfold Orchestrator.rerun_from Orchestrator.execute_steps
  rw [h1]

/-- Witness for C9 at the one-node DAG and the negative index -1. -/
theorem rerun_from_out_of_range_witness :
    ((-1 : Int) < 0 ∨ (witDAG.nodes.length : Int) ≤ -1) ∧
    (witDAG.rerun_from (-1) = witDAG ∧
      Orchestrator.rerun_from postEmpty witDAG [stepA] (-1) =
        execList postEmpty witDAG (pySliceFrom (-1) [stepA])) :=
  ⟨Or.inl (by decide), rerun_from_out_of_range postEmpty witDAG [stepA] (-1) (Or.inl (by decide))⟩

/-- C3: when every checks-kind response is well-shaped, a full plan run
succeeds, invokes the steps in declared order and appends exactly one
RunNode per step in that order (so n steps yield n nodes), the node status
being fail exactly when the capability invocation raised and ok otherwise;
in particular a failing step never aborts the plan. -/
theorem run_plan_one_node_per_step (post : Invoke) (steps : List PlanStep)
    (hwf : ∀ step ∈ steps, checksFieldOk post step) :
    ∃ d, Orchestrator.run_plan post steps = Except.ok d ∧
      d.nodes = steps.map (execStep post) ∧
      d.nodes.length = steps.length ∧
      ∀ step ∈ steps,
        (execStep post step).status =
          match post step.endpoint step.payload with
          | Except.ok _ => "ok"
          | Except.error _ => "fail" := by
  obtain ⟨d, hd, hnodes⟩ := execList_ok_of_wf post steps emptyRunDAG hwf
  refine ⟨d, ?_, ?_, ?_, ?_⟩
  · unfold Orchestrator.run_plan Orchestrator.execute_steps
    rw [pySliceFrom_zero]
    exact hd
  · simpa [emptyRunDAG] using hnodes
  · rw [hnodes]
    simp [emptyRunDAG]
  · intro step _
    exact execStep_status post step

/-- Witness for C3: a one-step plan whose capability always raises; the
failing step is recorded as one fail node and the run still succeeds. -/
theorem run_plan_one_node_per_step_witness :
    (∀ step ∈ [stepA], checksFieldOk postBoom step) ∧
    (∃ d, Orchestrator.run_plan postBoom [stepA] = Except.ok d ∧
      d.nodes = [stepA].map (execStep postBoom) ∧
      d.nodes.length = [stepA].length ∧
      ∀ step ∈ [stepA],
        (execStep postBoom step).status =
          match postBoom step.endpoint step.payload with
          | Except.ok _ => "ok"
          | Except.error _ => "fail") := by
  have hwf : ∀ step ∈ [stepA], checksFieldOk postBoom step := by
    intro step _ _ r hr
    simp [postBoom] at hr
  exact ⟨hwf, run_plan_one_node_per_step postBoom [stepA] hwf⟩

/-- C10 counterexample: a failing artifact step that declares the empty
string as its output key records the error object in its outputs, yet
add_node does not merge it into the artifacts map, because the Python
truthiness test on the key treats the empty string as absent. -/
theorem empty_output_key_not_merged :
    (execStep postBoom emptyKeyStep).outputs = [("error", Json.str "boom")] ∧
    (getOrEmpty (Orchestrator.run_plan postBoom [emptyKeyStep])).nodes.length = 1 ∧
    (getOrEmpty (Orchestrator.run_plan postBoom [emptyKeyStep])).artifacts "" = none :=
  ⟨rfl, rfl, rfl⟩

/-- C10 (amended): for a step of kind artifact, scalar or invariants with a
non-empty declared output key whose capability invocation fails, the
recorded node's outputs are the error object, and add_node merges that
error object into the artifacts map under the output key, so the artifacts
map is changed even on error. -/
theorem failed_step_error_merged (post : Invoke) (dag : RunDAG) (step : PlanStep)
    (key msg : String)
    (hfail : post step.endpoint step.payload = Except.error msg)
    (hkind : step.kind = "artifact" ∨ step.kind = "scalar" ∨ step.kind = "invariants")
    (hkey : step.output_key = some key) (hne : key ≠ "") :
    (execStep post step).outputs = [("error", Json.str msg)] ∧
    ∃ d2, dag.add_node (execStep post step) = Except.ok d2 ∧
      d2.artifacts key = some [("error", Json.str msg)] ∧
      d2.nodes = dag.nodes ++ [execStep post step] := by
  have hkc : step.kind ≠ "checks" := by
    rcases hkind with h | h | h <;> rw [h] <;> decide
  have houtputs : (execStep post step).outputs = [("error", Json.str msg)] := by
    unfold execStep
    rw [hfail]
    simp [hkind]
  have hchecks : (execStep post step).checks = Json.arr [] := by
    unfold execStep
    rw [hfail]
    simp [hkc]
  refine ⟨houtputs, ?_⟩
  unfold RunDAG.add_node
  rw [addChecks_ok_of_arr dag.checks _ [] hchecks]
  refine ⟨_, rfl, ?_, rfl⟩
  show addArtifacts dag.artifacts (execStep post step) key = some [("error", Json.str msg)]
  unfold addArtifacts
  rw [show (execStep post step).output_key = some key from by rw [← hkey]; rfl]
  dsimp only
  rw [if_pos ⟨hne, by rw [houtputs]; rfl⟩]
  simp [houtputs]

/-- Witness for C10 (amended): a failing scalar step with output key val. -/
theorem failed_step_error_merged_witness :
    (postBoom witKeyStep.endpoint witKeyStep.payload = Except.error "boom") ∧
    (witKeyStep.kind = "artifact" ∨ witKeyStep.kind = "scalar" ∨ witKeyStep.kind = "invariants") ∧
    (witKeyStep.output_key = some "val") ∧ ("val" ≠ "") ∧
    ((execStep postBoom witKeyStep).outputs = [("error", Json.str "boom")] ∧
      ∃ d2, emptyRunDAG.add_node (execStep postBoom witKeyStep) = Except.ok d2 ∧
        d2.artifacts "val" = some [("error", Json.str "boom")] ∧
        d2.nodes = emptyRunDAG.nodes ++ [execStep postBoom witKeyStep]) :=
  ⟨rfl, Or.inr (Or.inl rfl), rfl, by decide,
    failed_step_error_merged postBoom emptyRunDAG witKeyStep "val" "boom" rfl
      (Or.inr (Or.inl rfl)) rfl (by decide)⟩

/-- C2 counterexample: with a two-step checks plan, a full fresh run ends
with two recorded check verdicts, but rerunning from index 1 on the DAG of
a previous full run ends with only one (the verdict contributed by the
step before the rerun index is cleared and never re-created), so the two
resulting DAGs do not hold identical check verdicts. -/
theorem rerun_checks_differ_from_fresh :
    (getOrEmpty (Orchestrator.run_plan postChecks [stepA, stepB])).checks.length = 2 ∧
    (getOrEmpty (Orchestrator.rerun_from postChecks
      (getOrEmpty (Orchestrator.run_plan postChecks [stepA, stepB])) [stepA, stepB] 1)).checks.length = 1 ∧
    (getOrEmpty (Orchestrator.rerun_from postChecks
      (getOrEmpty (Orchestrator.run_plan postChecks [stepA, stepB])) [stepA, stepB] 1)).checks ≠
      (getOrEmpty (Orchestrator.run_plan postChecks [stepA, stepB])).checks := by
  refine ⟨rfl, rfl, ?_⟩
  intro h
  exact absurd (congrArg List.length h) (by decide)

/-- C2 (amended): rerunning from index k on the DAG of a previous full run
reruns the suffix exactly as a fresh run of steps[k:] would: the resulting
DAG carries the fresh suffix artifacts and checks after the retained node
prefix; every artifact key written by the suffix holds the same value as
in the full fresh run, and the full run's checks extend the rerun's checks
by exactly the verdicts of the steps before k.  Entries contributed only
by steps before k are absent from the rerun DAG. -/
theorem rerun_matches_fresh_suffix (post : Invoke) (steps : List PlanStep)
    (k : Nat) (full : RunDAG)
    (hrun : Orchestrator.run_plan post steps = Except.ok full)
    (hk : k < steps.length) :
    ∃ tail, Orchestrator.run_plan post (steps.drop k) = Except.ok tail ∧
      Orchestrator.rerun_from post full steps (k : Int) =
        Except.ok { nodes := full.nodes.take k ++ tail.nodes,
                    artifacts := tail.artifacts,
                    checks := tail.checks } ∧
      (∀ key v, tail.artifacts key = some v → full.artifacts key = some v) ∧
      ∃ head, full.checks = head ++ tail.checks := by
  have hrun' : execList post emptyRunDAG steps = Except.ok full := by
    unfold Orchestrator.run_plan Orchestrator.execute_steps at hrun
    rwa [pySliceFrom_zero] at hrun
  have hsplit := execList_append_steps post (steps.take k) (steps.drop k) emptyRunDAG
  rw [List.take_append_drop] at hsplit
  cases h1 : execList post emptyRunDAG (steps.take k) with
  | error e =>
      rw [h1] at hsplit
      dsimp only at hsplit
      rw [hsplit] at hrun'
      exact absurd hrun' (by simp)
  | ok s1 =>
      rw [h1] at hsplit
      dsimp only at hsplit
      rw [execList_from_state post (steps.drop k) s1] at hsplit
      rw [hsplit] at hrun'
      cases h2 : execList post emptyRunDAG (steps.drop k) with
      | error e =>
          rw [h2] at hrun'
          exact absurd hrun' (by simp [Except.map])
      | ok tail =>
          rw [h2] at hrun'
          have hfull : shiftDAG s1 tail = full := by
            simpa [Except.map] using hrun'
          have hs1nodes : s1.nodes = (steps.take k).map (execStep post) := by
            simpa [emptyRunDAG] using execList_nodes post (steps.take k) emptyRunDAG s1 h1
          have hs1len : s1.nodes.length = k := by
            rw [hs1nodes]
            simp [Nat.min_eq_left hk.le]
          have htailnodes : tail.nodes = (steps.drop k).map (execStep post) := by
            simpa [emptyRunDAG] using execList_nodes post (steps.drop k) emptyRunDAG tail h2
          have htailpos : 0 < tail.nodes.length := by
            rw [htailnodes]
            simp
            omega
          have hfullnodes : full.nodes = s1.nodes ++ tail.nodes := by
            rw [← hfull]
            rfl
          have hklt : k < full.nodes.length := by
            rw [hfullnodes]
            rw [List.length_append, hs1len]
            omega
          have htake : full.nodes.take k = s1.nodes := by
            rw [hfullnodes, ← hs1len]
            exact List.take_left s1.nodes tail.nodes
          refine ⟨tail, ?_, ?_, ?_, ⟨s1.checks, ?_⟩⟩
          · unfold Orchestrator.run_plan Orchestrator.execute_steps
            rw [pySliceFrom_zero]
            exact h2
          · have hcond : ¬ (((k : Int)) < 0 ∨ ((full.nodes.length : Int)) ≤ (k : Int)) := by
              push_neg
              omega
            unfold Orchestrator.rerun_from Orchestrator.execute_steps RunDAG.rerun_from
            rw [if_neg hcond, pySliceFrom_natCast]
            rw [execList_from_state post (steps.drop k), h2]
            show Except.ok _ = _
            rw [show ∀ d : RunDAG, Except.ok d = (Except.ok d : Except String RunDAG) from fun _ => rfl]
            congr 1
            unfold shiftDAG
            rw [combineArt_bot]
            simp [htake]
          · intro key v hv
            rw [← hfull]
            show combineArt s1.artifacts tail.artifacts key = some v
            unfold combineArt
            rw [hv]
          · rw [← hfull]
            rfl

/-- Witness for C2 (amended) at the two-step checks plan and k = 1. -/
theorem rerun_matches_fresh_suffix_witness :
    (Orchestrator.run_plan postChecks [stepA, stepB] =
      Except.ok (getOrEmpty (Orchestrator.run_plan postChecks [stepA, stepB]))) ∧
    1 < ([stepA, stepB] : List PlanStep).length ∧
    (∃ tail, Orchestrator.run_plan postChecks ([stepA, stepB].drop 1) = Except.ok tail ∧
      Orchestrator.rerun_from postChecks (getOrEmpty (Orchestrator.run_plan postChecks [stepA, stepB]))
          [stepA, stepB] ((1 : Nat) : Int) =
        Except.ok { nodes := (getOrEmpty (Orchestrator.run_plan postChecks [stepA, stepB])).nodes.take 1 ++ tail.nodes,
                    artifacts := tail.artifacts,
                    checks := tail.checks } ∧
      (∀ key v, tail.artifacts key = some v →
        (getOrEmpty (Orchestrator.run_plan postChecks [stepA, stepB])).artifacts key = some v) ∧
      ∃ head, (getOrEmpty (Orchestrator.run_plan postChecks [stepA, stepB])).checks = head ++ tail.checks) :=
  ⟨rfl, by decide,
    rerun_matches_fresh_suffix postChecks [stepA, stepB] 1
      (getOrEmpty (Orchestrator.run_plan postChecks [stepA, stepB])) rfl (by decide)⟩

/-- C4 counterexample: a payload whose coordinate list is the duplicate
pair x, x with a well-shaped 2 by 2 matrix passes shape validation, so
duplicate coordinate names are not rejected. -/
theorem duplicate_coords_accepted :
    validate_shape ["x", "x"] [["1", "0"], ["0", "1"]] = Except.ok () ∧
    ¬ (["x", "x"].Nodup) :=
  ⟨rfl, by decide⟩

/-- C4 (amended): shape validation accepts a payload exactly when the
coordinate list is non-empty and the matrix is square of matching size; in
particular it rejects a non-square matrix and an empty coordinate list,
but performs no duplicate-name check, so duplicate coordinate names are
accepted whenever the shape is right. -/
theorem validate_shape_characterization {α : Type} (coords : List String)
    (g_dd : List (List α)) :
    validate_shape coords g_dd = Except.ok () ↔
      (coords ≠ [] ∧ g_dd.length = coords.length ∧
        ∀ row ∈ g_dd, row.length = coords.length) := by
  unfold validate_shape
  by_cases h0 : coords.length = 0
  · rw [if_pos h0]
    have hc : coords = [] := List.length_eq_zero.mp h0
    subst hc
    simp
  · rw [if_neg h0]
    have hc : coords ≠ [] := fun hnil => h0 (by rw [hnil]; rfl)
    by_cases h1 : g_dd.length ≠ coords.length
    · rw [if_pos h1]
      simp [h1]
    · rw [if_neg h1]
      have h1' : g_dd.length = coords.length := not_not.mp h1
      by_cases h2 : ∀ row ∈ g_dd, row.length = coords.length
      · have hall : (g_dd.all fun row => decide (row.length = coords.length)) = true := by
          rw [List.all_eq_true]
          intro x hx
          exact decide_eq_true (h2 x hx)
        rw [if_pos hall]
        exact iff_of_true rfl ⟨hc, h1', h2⟩
      · have hall : ¬ ((g_dd.all fun row => decide (row.length = coords.length)) = true) := by
          rw [List.all_eq_true]
          intro hcontra
          exact h2 (fun x hx => of_decide_eq_true (hcontra x hx))
        rw [if_neg hall]
        simp [h2]

/-- C5 counterexample: at level 3, when generic simplification succeeds
as the identity, the common-denominator combination fails internally, and
factorization would succeed and change its argument, simplify_tensor
returns the tier-1 result without attempting factorization, not the
result of the spec's per-tier-fallback cascade. -/
theorem level3_together_failure_skips_factor :
    simplify_tensor oracleId oracleFail oracleSucc [0] 3 = [0] ∧
    specTierResult oracleId oracleFail oracleSucc 0 3 = 1 ∧
    oracleSucc (tier2 oracleId oracleFail 0) = some 1 ∧
    simplify_tensor oracleId oracleFail oracleSucc [0] 3 ≠
      [specTierResult oracleId oracleFail oracleSucc 0 3] :=
  ⟨rfl, rfl, rfl, by decide⟩

lemma simplify_expr_level_le_zero {Expr : Type} (S T F : Expr → Option Expr)
    (e : Expr) (level : Int) (h : level ≤ 0) :
    simplify_expr S T F e level = e := by
  simp [simplify_expr, h]

lemma simplify_expr_level_one {Expr : Type} (S T F : Expr → Option Expr)
    (e : Expr) (level : Int) (h0 : ¬ level ≤ 0) (h1 : level ≤ 1) :
    simplify_expr S T F e level = tier1 S e := by
  cases hs : S e <;> simp [simplify_expr, tier1, h0, h1, hs]

lemma simplify_expr_level_two {Expr : Type} (S T F : Expr → Option Expr)
    (e : Expr) (level : Int) (h1 : ¬ level ≤ 1) (h2 : level ≤ 2) :
    simplify_expr S T F e level = tier2 S T e := by
  have h0 : ¬ level ≤ 0 := by omega
  cases hs : S e with
  | none => cases ht : T e <;> simp [simplify_expr, tier1, tier2, h0, h1, h2, hs, ht]
  | some s => cases ht : T s <;> simp [simplify_expr, tier1, tier2, h0, h1, h2, hs, ht]

lemma simplify_expr_level_big {Expr : Type} (S T F : Expr → Option Expr)
    (e : Expr) (level : Int) (h2 : ¬ level ≤ 2) :
    simplify_expr S T F e level =
      match T (tier1 S e) with
      | none => tier1 S e
      | some t => (F t).getD t := by
  have h0 : ¬ level ≤ 0 := by omega
  have h1 : ¬ level ≤ 1 := by omega
  cases hs : S e with
  | none =>
      cases ht : T e with
      | none => simp [simplify_expr, tier1, h0, h1, h2, hs, ht]
      | some t => cases hf : F t <;> simp [simplify_expr, tier1, h0, h1, h2, hs, ht, hf]
  | some s =>
      cases ht : T s with
      | none => simp [simplify_expr, tier1, h0, h1, h2, hs, ht]
      | some t => cases hf : F t <;> simp [simplify_expr, tier1, h0, h1, h2, hs, ht, hf]

lemma simplify_expr_eq_codeTier {Expr : Type} (S T F : Expr → Option Expr)
    (e : Expr) (level : Int) :
    simplify_expr S T F e level = codeTierResult S T F e (levelTier level) := by
  unfold levelTier
  by_cases h0 : level ≤ 0
  · rw [if_pos h0, simplify_expr_level_le_zero S T F e level h0]
    rfl
  · rw [if_neg h0]
    by_cases h1 : level ≤ 1
    · rw [if_pos h1, simplify_expr_level_one S T F e level h0 h1]
      rfl
    · rw [if_neg h1]
      by_cases h2 : level ≤ 2
      · rw [if_pos h2, simplify_expr_level_two S T F e level h1 h2]
        rfl
      · rw [if_neg h2, simplify_expr_level_big S T F e level h2]
        rfl

/-- C5 (amended): simplify_tensor is a total function (simplification at
the tensor level never raises even when every engine operation fails) and
maps each component through the tier cascade selected by the level: tier 0
is a no-op, tier 1 generic simplification with fallback to the input,
tier 2 combination with fallback to tier 1, and tier 3 factorization with
fallback to its input, except that when the tier-2 combination fails at
level 3 the tier-1 result is returned without attempting factorization. -/
theorem simplify_tensor_total_tiered {Expr : Type} (S T F : Expr → Option Expr)
    (tensor : List Expr) (level : Int) :
    simplify_tensor S T F tensor level =
      tensor.map (fun e => codeTierResult S T F e (levelTier level)) ∧
    (simplify_tensor S T F tensor level).length = tensor.length := by
  constructor
  · unfold simplify_tensor
    exact List.map_congr_left (fun e _ => simplify_expr_eq_codeTier S T F e level)
  · unfold simplify_tensor
    exact List.length_map tensor _

lemma foldl_max_assoc (l : List ℚ) : ∀ a b : ℚ,
    l.foldl max (max a b) = max a (l.foldl max b) := by
  induction l with
  | nil => intro a b; rfl
  | cons x xs ih =>
      intro a b
      show xs.foldl max (max (max a b) x) = max a (xs.foldl max (max b x))
      rw [max_assoc]
      exact ih a (max b x)

lemma le_foldl_max (l : List ℚ) : ∀ a : ℚ, a ≤ l.foldl max a := by
  induction l with
  | nil => intro a; exact le_refl a
  | cons x xs ih => intro a; exact le_trans (le_max_left a x) (ih (max a x))

lemma evaluate_tensor_max_filterMap {Expr Sample : Type}
    (evalN : Expr → Sample → Option ℚ) (s : Sample) : ∀ (tensor : List Expr) (a : ℚ),
    tensor.foldl
      (fun max_abs e =>
        match evalN e s with
        | none => max_abs
        | some q => max max_abs |q|) a =
    (tensor.filterMap (fun e => (evalN e s).map (fun q => |q|))).foldl max a := by
  intro tensor
  induction tensor with
  | nil => intro a; rfl
  | cons e rest ih =>
      intro a
      cases hv : evalN e s <;>
        simp [List.foldl_cons, List.filterMap_cons, hv, ih]

lemma vacuum_fold_eq_specMax {Expr Sample : Type}
    (evalN : Expr → Sample → Option ℚ) (tensor : List Expr) :
    ∀ (pts : List Sample) (a : ℚ), 0 ≤ a →
      pts.foldl (fun acc s => max acc (evaluate_tensor_max evalN tensor s)) a =
      ((pts.map (fun s => tensor.filterMap (fun e => (evalN e s).map (fun q => |q|)))).flatten).foldl max a := by
  intro pts
  induction pts with
  | nil => intro a _; rfl
  | cons s rest ih =>
      intro a ha
      show rest.foldl _ (max a (evaluate_tensor_max evalN tensor s)) = _
      rw [List.map_cons, List.flatten_cons, List.foldl_append]
      have h1 : evaluate_tensor_max evalN tensor s =
          (tensor.filterMap (fun e => (evalN e s).map (fun q => |q|))).foldl max 0 :=
        evaluate_tensor_max_filterMap evalN s tensor 0
      have h2 : max a (evaluate_tensor_max evalN tensor s) =
          (tensor.filterMap (fun e => (evalN e s).map (fun q => |q|))).foldl max a := by
        rw [h1]
        have h3 := foldl_max_assoc
          (tensor.filterMap (fun e => (evalN e s).map (fun q => |q|))) a 0
        rw [max_eq_left ha] at h3
        exact h3.symm
      rw [h2]
      exact ih _ (le_trans ha (le_foldl_max _ a))

/-- C7: with a non-empty sample list, check_vacuum runs in numeric mode:
it computes the maximum absolute numeric value over all Einstein-tensor
components across all samples (skipping components whose evaluation
fails), passes exactly when that maximum is at most the caller epsilon
(1e-8 when none is given), and records the measured maximum and threshold
in the result's residual and notes, while symbolic mode leaves notes
empty, so the mode used is recoverable from the result. -/
theorem check_vacuum_numeric_mode {Expr Sample Metric : Type}
    (einsteinOf : Metric → List Expr) (evalNum : Metric → Expr → Sample → Option ℚ)
    (isZero : Expr → Bool) (metric : Metric) (pts : List Sample) (epsilon : Option ℚ)
    (hne : pts ≠ []) :
    check_vacuum einsteinOf evalNum isZero metric (some pts) epsilon =
      { check_name := "vacuum",
        passed := decide (specVacuumMax (evalNum metric) (einsteinOf metric) pts ≤ epsilon.getD eps0),
        residual := some (toString (specVacuumMax (evalNum metric) (einsteinOf metric) pts)),
        notes := some ("max_abs=" ++ toString (specVacuumMax (evalNum metric) (einsteinOf metric) pts)
          ++ " threshold=" ++ toString (epsilon.getD eps0)) } ∧
    ((check_vacuum einsteinOf evalNum isZero metric (some pts) epsilon).passed = true ↔
      specVacuumMax (evalNum metric) (einsteinOf metric) pts ≤ epsilon.getD eps0) ∧
    (check_vacuum einsteinOf evalNum isZero metric none epsilon).notes = none := by
  cases pts with
  | nil => exact absurd rfl hne
  | cons s0 rest =>
      have hmax : (s0 :: rest).foldl
          (fun acc s => max acc (evaluate_tensor_max (evalNum metric) (einsteinOf metric) s)) 0 =
          specVacuumMax (evalNum metric) (einsteinOf metric) (s0 :: rest) :=
        vacuum_fold_eq_specMax (evalNum metric) (einsteinOf metric) (s0 :: rest) 0 (le_refl 0)
      have hmain : check_vacuum einsteinOf evalNum isZero metric (some (s0 :: rest)) epsilon =
          { check_name := "vacuum",
            passed := decide (specVacuumMax (evalNum metric) (einsteinOf metric) (s0 :: rest) ≤ epsilon.getD eps0),
            residual := some (toString (specVacuumMax (evalNum metric) (einsteinOf metric) (s0 :: rest))),
            notes := some ("max_abs=" ++ toString (specVacuumMax (evalNum metric) (einsteinOf metric) (s0 :: rest))
              ++ " threshold=" ++ toString (epsilon.getD eps0)) } := by
        unfold check_vacuum
        dsimp only
        rw [hmax]
      refine ⟨hmain, ?_, rfl⟩
      rw [hmain]
      exact decide_eq_true_iff

/-- Witness for C7 at a one-component tensor over one sample evaluating
to 3, with the default epsilon. -/
theorem check_vacuum_numeric_mode_witness :
    (([()] : List Unit) ≠ []) ∧
    (check_vacuum (fun (_ : Unit) => [()]) (fun _ _ (_ : Unit) => some 3) (fun _ => true) ()
        (some [()]) none =
      { check_name := "vacuum",
        passed := decide (specVacuumMax (fun _ (_ : Unit) => some 3) [()] [()] ≤ (none : Option ℚ).getD eps0),
        residual := some (toString (specVacuumMax (fun _ (_ : Unit) => some 3) [()] [()])),
        notes := some ("max_abs=" ++ toString (specVacuumMax (fun _ (_ : Unit) => some 3) [()] [()])
          ++ " threshold=" ++ toString ((none : Option ℚ).getD eps0)) } ∧
    ((check_vacuum (fun (_ : Unit) => [()]) (fun _ _ (_ : Unit) => some 3) (fun _ => true) ()
        (some [()]) none).passed = true ↔
      specVacuumMax (fun _ (_ : Unit) => some 3) [()] [()] ≤ (none : Option ℚ).getD eps0) ∧
    (check_vacuum (fun (_ : Unit) => [()]) (fun _ _ (_ : Unit) => some 3) (fun _ => true) ()
        none none).notes = none) :=
  ⟨by decide,
    check_vacuum_numeric_mode (fun (_ : Unit) => [()]) (fun _ _ (_ : Unit) => some 3)
      (fun _ => true) () [()] none (by decide)⟩

/-- C8 counterexample: two refutations in SI mode.  For x**y with x
declared in meters and y undeclared, the result fails but its note is the
non-numeric-exponent message, which does not name (or even contain) the
missing symbol y.  For f(1, y) with y undeclared, the result does not even
fail: only the first function argument is inspected, so the undeclared
symbol is never visited and the check passes. -/
theorem units_note_misses_symbol :
    (check_units qUnits sympifyDemo evalCDemo parseQ "x**y" [("x", "meter")] "SI").passed = false ∧
    (check_units qUnits sympifyDemo evalCDemo parseQ "x**y" [("x", "meter")] "SI").notes =
      some "non-numeric exponent in unit expression" ∧
    (([("x", "meter")] : List (String × String)).find? (fun p => p.1 = "y")) = none ∧
    sympifyDemo "x**y" = Except.ok (UExpr.pow (UExpr.sym "x") (UExpr.sym "y")) ∧
    ¬ ('y' ∈ "non-numeric exponent in unit expression".toList) ∧
    sympifyDemo "f(1, y)" = Except.ok (UExpr.func "f" [UExpr.num 1, UExpr.sym "y"]) ∧
    (([] : List (String × String)).find? (fun p => p.1 = "y")) = none ∧
    check_units qUnits sympifyDemo evalCDemo parseQ "f(1, y)" [] "SI" =
      { check_name := "unit_check", passed := true } :=
  ⟨rfl, rfl, rfl, rfl, by decide, rfl, rfl, rfl⟩

/-- C8 (amended): check_units is a total function (it never raises);
geometrized mode always passes with the no-dimension-check note; SI mode
passes exactly when parsing and the recursive unit assignment succeed, and
whenever the assignment fails at the lookup of an undeclared symbol the
result is a failing CheckResult whose note is the KeyError text naming
that symbol.  An expression containing an undeclared symbol need not
fail: the symbol may never be visited (only the first argument of a
function application is inspected) or a different unit error may be
raised first, in which case the note carries that message. -/
theorem check_units_behaviour {Unit : Type} (us : UnitSystem Unit)
    (sympifyO : String → Except String UExpr) (evalC : UExpr → Except String ℚ)
    (parseU : String → Except String Unit)
    (expression : String) (symbol_units : List (String × String)) :
    check_units us sympifyO evalC parseU expression symbol_units "geometrized" =
      { check_name := "unit_check", passed := true,
        notes := some "geometrized units assumed; no dimension check applied" } ∧
    (∀ expr name, sympifyO expression = Except.ok expr →
      unit_of_expr us evalC parseU symbol_units expr = Except.error (UnitErr.key name) →
      check_units us sympifyO evalC parseU expression symbol_units "SI" =
        { check_name := "unit_check", passed := false, notes := some (keyErrorStr name) } ∧
      name.toList <:+: (keyErrorStr name).toList) ∧
    ((check_units us sympifyO evalC parseU expression symbol_units "SI").passed = true ↔
      ∃ expr, sympifyO expression = Except.ok expr ∧
        ∃ u, unit_of_expr us evalC parseU symbol_units expr = Except.ok u) := by
  have hsi : startsWithGeomLC "SI" = false := rfl
  refine ⟨?_, ?_, ?_⟩
  · have hgeo : startsWithGeomLC "geometrized" = true := rfl
    simp [check_units, hgeo]
  · intro expr name hok herr
    constructor
    · simp [check_units, hsi, hok, herr]
    · show name.toList <:+: (keyErrorStr name).toList
      refine ⟨"\"missing unit for symbol \x27".toList, "\x27\"".toList, ?_⟩
      show "\"missing unit for symbol \x27".toList ++ name.toList ++ "\x27\"".toList
        = (keyErrorStr name).toList
      unfold keyErrorStr
      simp [String.toList, String.data_append]
  · cases hok : sympifyO expression with
    | error msg => simp [check_units, hsi, hok]
    | ok expr =>
        cases herr : unit_of_expr us evalC parseU symbol_units expr with
        | ok u => simp [check_units, hsi, hok, herr]
        | error e =>
            cases e with
            | key name => simp [check_units, hsi, hok, herr]
            | exc msg => simp [check_units, hsi, hok, herr]

/-- Witness for C8 (amended): the bare undeclared symbol z in SI mode. -/
theorem check_units_behaviour_witness :
    (sympifyDemo "z" = Except.ok (UExpr.sym "z")) ∧
    (unit_of_expr qUnits evalCDemo parseQ [] (UExpr.sym "z") = Except.error (UnitErr.key "z")) ∧
    (check_units qUnits sympifyDemo evalCDemo parseQ "z" [] "SI" =
      { check_name := "unit_check", passed := false, notes := some (keyErrorStr "z") } ∧
      "z".toList <:+: (keyErrorStr "z").toList) :=
  ⟨rfl, rfl,
    (check_units_behaviour qUnits sympifyDemo evalCDemo parseQ "z" []).2.1 (UExpr.sym "z") "z" rfl rfl⟩

end GRAssist
